import Mathlib

/-!
Verification of the synchronized playback-tick scheduler
(`SynchronizedTimeTracker` in `quodlibet/ext/events/seekbar.py`).

The scheduler owns at most one pending GLib timeout source, subscribes to
four player signals (`paused`, `unpaused`, `seek`, `song-started`) and emits
one `tick` per elapsed second of playback.  The development below is a
shallow embedding of that class: the pure arithmetic of `__run` is embedded
as functions on `Nat` (all positions and intervals in the source are
non-negative Python ints), and the stateful part (the tracker fields
`__tick_prev_sec` and `__source_id` together with the GLib source table)
is embedded as an explicit state machine driven by player events and timer
firings, dispatched serially as in the GLib main loop.
-/

namespace SeekBar

/-- Models `self.offset = 10` (seekbar.py line 42): lead added past the full
second so the wake-up fires just after the second boundary. -/
def offset : Nat := 10

/-- Models `self.max_delta = 20` (seekbar.py line 46): resync threshold for
the drift-correction decision. -/
def maxDelta : Nat := 20

/-- Python `abs(a - b)` for the non-negative ints occurring here. -/
def absDiff (a b : Nat) : Nat := ((a : Int) - (b : Int)).natAbs

/-- Models `interval = 1000 + self.offset - (position % 1000)`
(seekbar.py lines 76 and 85; the same expression at both arming sites). -/
def idealInterval (pos : Nat) : Nat := 1000 + offset - pos % 1000

/-- Tick decision of `__run` (seekbar.py lines 71-75): from the previous
`__tick_prev_sec` and the freshly read position, returns whether `tick` is
emitted and the new `__tick_prev_sec`. -/
def tickStep (prev pos : Nat) : Bool × Nat :=
  if pos / 1000 ≠ prev ∧ pos / 1000 ≠ 0 then (true, pos / 1000) else (false, prev)

/-- Re-arm action taken at the end of `__run` (seekbar.py lines 77-80):
either a fresh one-shot `GLib.timeout_add(interval, self.__run, interval)`
or the steady repeat of the current source (`return True`). -/
inductive Rearm where
  | newOneShot (interval : Nat)
  | steadyRepeat
  deriving DecidableEq, Repr

/-- Result of one execution of `__run`: new `__tick_prev_sec`, whether
`tick` was emitted, and the re-arm action. -/
structure RunResult where
  tickPrevSec : Nat
  didTick : Bool
  act : Rearm
  deriving DecidableEq, Repr

/-- Models `__run(last_interval)` (seekbar.py lines 70-80), given the
position read by `self._player.get_position()`. -/
def runCallback (prev lastInterval pos : Nat) : RunResult :=
  let t := tickStep prev pos
  if absDiff lastInterval (idealInterval pos) > maxDelta then
    ⟨t.2, t.1, .newOneShot (idealInterval pos)⟩
  else
    ⟨t.2, t.1, .steadyRepeat⟩

/-- Models `__song_started` (seekbar.py lines 61-63): the new value of
`__tick_prev_sec`. -/
def songStartedStep (prev : Nat) : Nat := if prev = 1 then 0 else prev

/-- Models the GLib main-loop timer table: the live timeout sources created
by the tracker, each recorded as (source id, interval bound to `__run`),
plus a counter supplying fresh source ids. -/
structure GLibState where
  sources : List (Nat × Nat)
  nextId : Nat
  deriving DecidableEq, Repr

/-- Models `GLib.timeout_add(interval, self.__run, interval)`: registers a
new source and returns its id. -/
def timeoutAdd (interval : Nat) (g : GLibState) : Nat × GLibState :=
  (g.nextId, ⟨g.sources ++ [(g.nextId, interval)], g.nextId + 1⟩)

/-- Models `GLib.source_remove(source_id)`. -/
def sourceRemove (id : Nat) (g : GLibState) : GLibState :=
  ⟨g.sources.filter (fun p => p.1 != id), g.nextId⟩

/-- Looks up the interval bound to a live source (the `last_interval`
argument its `__run` callback was registered with). -/
def findInterval (id : Nat) : List (Nat × Nat) → Option Nat
  | [] => none
  | (i, iv) :: rest => if i = id then some iv else findInterval id rest

/-- Models the mutable fields of `SynchronizedTimeTracker`:
`__tick_prev_sec`, `__source_id`, the player pause state the tracker
observes through the `paused`/`unpaused` signals, and whether the signal
subscriptions made in `__init__` are still connected (`destroy`
disconnects them). -/
structure Tracker where
  tickPrevSec : Nat
  sourceId : Option Nat
  paused : Bool
  attached : Bool
  deriving DecidableEq, Repr

/-- Whole-system state: tracker fields plus the GLib timer table. -/
structure Sys where
  tr : Tracker
  g : GLibState
  deriving DecidableEq, Repr

/-- Models `__disable` (seekbar.py lines 88-91). -/
def disable (s : Sys) : Sys :=
  match s.tr.sourceId with
  | some id => ⟨{ s.tr with sourceId := none }, sourceRemove id s.g⟩
  | none => s

/-- Models `__enable` (seekbar.py lines 82-86), given the position read by
`self._player.get_position()`. -/
def enable (pos : Nat) (s : Sys) : Sys :=
  match s.tr.sourceId with
  | some _ => s
  | none =>
    let r := timeoutAdd (idealInterval pos) s.g
    ⟨{ s.tr with sourceId := some r.1 }, r.2⟩

/-- Models `restart` (seekbar.py lines 93-95). -/
def restart (pos : Nat) (s : Sys) : Sys := enable pos (disable s)

/-- Models `destroy` (seekbar.py lines 97-100): cancel the pending wake-up
and disconnect all four player-signal subscriptions. -/
def destroy (s : Sys) : Sys :=
  let s1 := disable s
  ⟨{ s1.tr with attached := false }, s1.g⟩

/-- Models one firing of live source `id` with the interval bound at its
creation: executes `__run` and applies the GLib return-value semantics
(`return True` keeps the source; returning `None` after `timeout_add`
drops the fired source and records the new one in `__source_id`). -/
def fireStep (s : Sys) (id pos : Nat) : Sys × Bool :=
  match findInterval id s.g.sources with
  | none => (s, false)
  | some iv =>
    let r := runCallback s.tr.tickPrevSec iv pos
    match r.act with
    | .steadyRepeat => (⟨{ s.tr with tickPrevSec := r.tickPrevSec }, s.g⟩, r.didTick)
    | .newOneShot niv =>
      let t := timeoutAdd niv s.g
      (⟨{ s.tr with tickPrevSec := r.tickPrevSec, sourceId := some t.1 },
        sourceRemove id t.2⟩, r.didTick)

/-- Serially dispatched events: the four player signals (delivered only
while the subscriptions are connected), a timer firing, and `destroy`.
Signal events carry the position the handler would read from the player. -/
inductive Ev where
  | pauseSig
  | unpauseSig (pos : Nat)
  | seekSig (seekPos : Nat) (pos : Nat)
  | songStartedSig
  | fire (id : Nat) (pos : Nat)
  | destroySig
  deriving DecidableEq, Repr

/-- One serially dispatched event; returns the new state and whether a
`tick` was emitted during the dispatch. -/
def step (s : Sys) (e : Ev) : Sys × Bool :=
  match e with
  | .pauseSig =>
    if s.tr.attached then (disable ⟨{ s.tr with paused := true }, s.g⟩, false)
    else (s, false)
  | .unpauseSig pos =>
    if s.tr.attached then (enable pos ⟨{ s.tr with paused := false }, s.g⟩, false)
    else (s, false)
  | .seekSig seekPos pos =>
    if s.tr.attached then
      let s1 : Sys := ⟨{ s.tr with tickPrevSec := seekPos / 1000 }, s.g⟩
      if s1.tr.paused then (s1, false) else (restart pos s1, false)
    else (s, false)
  | .songStartedSig =>
    if s.tr.attached then
      (⟨{ s.tr with tickPrevSec := songStartedStep s.tr.tickPrevSec }, s.g⟩, false)
    else (s, false)
  | .fire id pos => fireStep s id pos
  | .destroySig => (destroy s, false)

/-- Models `__init__` (seekbar.py lines 36-59): fresh tracker state,
subscriptions connected, and `__enable` run immediately when the player is
not paused, reading the given position. -/
def attach (playerPaused : Bool) (pos : Nat) : Sys :=
  let s : Sys := ⟨⟨0, none, playerPaused, true⟩, ⟨[], 0⟩⟩
  if playerPaused then s else enable pos s

/-- States reachable from a fresh tracker by serial event dispatch. -/
inductive Reachable : Sys → Prop where
  | base (b : Bool) (pos : Nat) : Reachable (attach b pos)
  | next (s : Sys) (e : Ev) (h : Reachable s) : Reachable (step s e).1

/-- Dispatches a list of events; the Bool is true when some dispatch
emitted a `tick`. -/
def runEvents (s : Sys) : List Ev → Sys × Bool
  | [] => (s, false)
  | e :: rest =>
    let p := step s e
    let q := runEvents p.1 rest
    (q.1, p.2 || q.2)

/-- Correspondence between `__source_id` and the GLib table: when no id is
held there is no live source, and when an id is held it is the single live
source. -/
def SourcesOk (s : Sys) : Prop :=
  match s.tr.sourceId with
  | none => s.g.sources = []
  | some id => ∃ iv, s.g.sources = [(id, iv)]

/-- The state invariant: source correspondence, freshness of the id
counter, interval bounds on every live source, and the armed-iff-pending
law (`__source_id` is held exactly while the tracker is attached and the
player is not paused). -/
def Inv (s : Sys) : Prop :=
  SourcesOk s ∧
  (∀ p ∈ s.g.sources, p.1 < s.g.nextId ∧ 11 ≤ p.2 ∧ p.2 ≤ 1010) ∧
  s.tr.sourceId.isSome = (s.tr.attached && !s.tr.paused)

/-! Basic lemmas on the pure core of `__run`. -/

theorem idealInterval_bounds (pos : Nat) :
    11 ≤ idealInterval pos ∧ idealInterval pos ≤ 1010 := by
  have h : pos % 1000 < 1000 := Nat.mod_lt pos (by norm_num)
  unfold idealInterval offset
  omega

theorem runCallback_didTick (prev li pos : Nat) :
    (runCallback prev li pos).didTick = (tickStep prev pos).1 := by
  unfold runCallback
  split <;> rfl

theorem runCallback_tickPrevSec (prev li pos : Nat) :
    (runCallback prev li pos).tickPrevSec = (tickStep prev pos).2 := by
  unfold runCallback
  split <;> rfl

theorem runCallback_act (prev li pos : Nat) :
    (runCallback prev li pos).act =
      if absDiff li (idealInterval pos) > maxDelta then
        Rearm.newOneShot (idealInterval pos)
      else Rearm.steadyRepeat := by
  unfold runCallback
  split <;> simp_all

theorem tickStep_fst (prev pos : Nat) :
    (tickStep prev pos).1 = true ↔ (pos / 1000 ≠ prev ∧ pos / 1000 ≠ 0) := by
  unfold tickStep
  split
  · simp_all
  · simp_all
    tauto

theorem tickStep_snd_of_tick (prev pos : Nat) (h : (tickStep prev pos).1 = true) :
    (tickStep prev pos).2 = pos / 1000 := by
  unfold tickStep at *
  split at h <;> simp_all

theorem tickStep_snd_of_noTick (prev pos : Nat) (h : (tickStep prev pos).1 = false) :
    (tickStep prev pos).2 = prev := by
  unfold tickStep at *
  split <;> simp_all

/-! Claim theorems on the pure core. -/

/-- C1: on every firing of `__run`, with `current_sec = position // 1000`
from the single fresh position read, `tick` is emitted iff `current_sec`
differs from `__tick_prev_sec` and is non-zero; in that case
`__tick_prev_sec` becomes `current_sec` (and otherwise it is unchanged);
in particular no position below 1000 ms emits a tick. -/
theorem c1_run_tick_iff (prev li pos : Nat) :
    ((runCallback prev li pos).didTick = true ↔
      (pos / 1000 ≠ prev ∧ pos / 1000 ≠ 0)) ∧
    ((runCallback prev li pos).didTick = true →
      (runCallback prev li pos).tickPrevSec = pos / 1000) ∧
    ((runCallback prev li pos).didTick = false →
      (runCallback prev li pos).tickPrevSec = prev) ∧
    (pos < 1000 → (runCallback prev li pos).didTick = false) := by
  rw [runCallback_didTick, runCallback_tickPrevSec]
  refine ⟨tickStep_fst prev pos, tickStep_snd_of_tick prev pos,
    tickStep_snd_of_noTick prev pos, fun hlt => ?_⟩
  have h0 : pos / 1000 = 0 := Nat.div_eq_of_lt hlt
  rcases h : (tickStep prev pos).1 with _ | _
  · rfl
  · exact absurd ((tickStep_fst prev pos).mp h).2 (by simp [h0])

/-- C1 witness: concrete firings at 500 ms (no tick) and 1005 ms (tick). -/
theorem c1_witness :
    500 < 1000 ∧ (runCallback 0 1010 500).didTick = false ∧
    (runCallback 0 1010 1005).didTick = true :=
  ⟨by decide, (c1_run_tick_iff 0 1010 500).2.2.2 (by decide),
    (c1_run_tick_iff 0 1010 1005).1.mpr (by decide)⟩

/-- C2: at the end of every firing of `__run`, with
`ideal_interval = 1000 + offset - position % 1000` (`offset = 10`), the
tracker arms a fresh one-shot wake-up carrying `ideal_interval` exactly
when `abs(last_interval - ideal_interval) > max_delta` (`max_delta = 20`),
and otherwise steady-repeats the identical previous interval; the two
actions are distinct constructors, so exactly one occurs per firing. -/
theorem c2_rearm_decision (prev li pos : Nat) :
    offset = 10 ∧ maxDelta = 20 ∧
    idealInterval pos = 1000 + offset - pos % 1000 ∧
    ((runCallback prev li pos).act = Rearm.newOneShot (idealInterval pos) ↔
      absDiff li (idealInterval pos) > maxDelta) ∧
    ((runCallback prev li pos).act = Rearm.steadyRepeat ↔
      ¬(absDiff li (idealInterval pos) > maxDelta)) ∧
    ((runCallback prev li pos).act = Rearm.newOneShot (idealInterval pos) ∨
      (runCallback prev li pos).act = Rearm.steadyRepeat) := by
  rw [runCallback_act]
  refine ⟨rfl, rfl, rfl, ?_, ?_, ?_⟩ <;> split <;> simp_all

/-- C2 witness: a drifted firing re-arms with the ideal interval; an
in-tolerance firing steady-repeats. -/
theorem c2_witness :
    absDiff 887 (idealInterval 5010) > maxDelta ∧
    (runCallback 5 887 5010).act = Rearm.newOneShot (idealInterval 5010) ∧
    ¬(absDiff 1010 (idealInterval 1005) > maxDelta) ∧
    (runCallback 0 1010 1005).act = Rearm.steadyRepeat :=
  ⟨by decide, (c2_rearm_decision 5 887 5010).2.2.2.1.mpr (by decide),
    by decide, (c2_rearm_decision 0 1010 1005).2.2.2.2.1.mpr (by decide)⟩

/-- C5 counterexample: attach at position 0 while playing arms the first
wake-up with interval 1010 and the firing at 1005 ms does tick with
`__tick_prev_sec` becoming 1, but the next wake-up is the steady repeat of
the same source with interval 1010 — no source with the claimed interval
1005 exists, because `abs(1010 - 1005) = 5` is within `max_delta`. -/
theorem c5_counterexample :
    (attach false 0).g.sources = [(0, 1010)] ∧
    (step (attach false 0) (Ev.fire 0 1005)).2 = true ∧
    (step (attach false 0) (Ev.fire 0 1005)).1.tr.tickPrevSec = 1 ∧
    (step (attach false 0) (Ev.fire 0 1005)).1.g.sources = [(0, 1010)] ∧
    ((step (attach false 0) (Ev.fire 0 1005)).1.g.sources.all
      (fun p => p.2 != 1005)) = true ∧
    (runCallback 0 1010 1005).act = Rearm.steadyRepeat := by
  decide

/-- C5 amended: attach at position 0 while playing arms the first wake-up
with interval 1010; the firing that reads 1005 ms emits a tick and sets
`__tick_prev_sec = 1`; the freshly computed ideal interval is
1000 + 10 - 5 = 1005, which is within the resync threshold of the
scheduled 1010 (difference 5 ≤ 20), so the wake-up steady-repeats with the
identical interval 1010 instead of re-arming with 1005. -/
theorem c5_amended_scenario :
    (attach false 0).tr.sourceId = some 0 ∧
    (attach false 0).g.sources = [(0, idealInterval 0)] ∧
    idealInterval 0 = 1010 ∧
    (step (attach false 0) (Ev.fire 0 1005)).2 = true ∧
    (step (attach false 0) (Ev.fire 0 1005)).1.tr.tickPrevSec = 1 ∧
    idealInterval 1005 = 1005 ∧
    absDiff 1010 (idealInterval 1005) ≤ maxDelta ∧
    (step (attach false 0) (Ev.fire 0 1005)).1.tr.sourceId = some 0 ∧
    (step (attach false 0) (Ev.fire 0 1005)).1.g.sources = [(0, 1010)] := by
  decide

/-- C8: `__song_started` resets `__tick_prev_sec` to 0 exactly when it
equals 1, leaves every other value unchanged, changes nothing else in the
state, and emits no tick. -/
theorem c8_track_started_reset (s : Sys) (p : Nat) (ha : s.tr.attached = true) :
    songStartedStep 1 = 0 ∧
    (p ≠ 1 → songStartedStep p = p) ∧
    (step s Ev.songStartedSig).1 =
      ⟨{ s.tr with tickPrevSec := songStartedStep s.tr.tickPrevSec }, s.g⟩ ∧
    (step s Ev.songStartedSig).2 = false := by
  refine ⟨rfl, fun hp => ?_, ?_, ?_⟩
  · simp [songStartedStep, hp]
  · simp [step, ha]
  · simp [step, ha]

/-- C8 witness: reset at 1, unchanged at 7, concrete dispatch. -/
theorem c8_witness :
    songStartedStep 1 = 0 ∧ songStartedStep 7 = 7 ∧
    (step (attach false 0) Ev.songStartedSig).2 = false :=
  ⟨(c8_track_started_reset (attach false 0) 7 (by decide)).1,
    (c8_track_started_reset (attach false 0) 7 (by decide)).2.1 (by decide),
    (c8_track_started_reset (attach false 0) 7 (by decide)).2.2.2⟩

/-! Machinery for the no-duplicate-ticks property (C3): a maximal run of
consecutive wake-up firings with no intervening player signal, folding
`__run` over the successive position reads while threading
`__tick_prev_sec` and the `last_interval` of the live source exactly as
`fireStep` does, and collecting the seconds at which `tick` was emitted. -/

def fireSeconds (prev lastInterval : Nat) : List Nat → List Nat
  | [] => []
  | pos :: rest =>
    (if (runCallback prev lastInterval pos).didTick then [pos / 1000] else []) ++
      fireSeconds (runCallback prev lastInterval pos).tickPrevSec
        (match (runCallback prev lastInterval pos).act with
          | .newOneShot iv => iv
          | .steadyRepeat => lastInterval) rest

/-- Position reads in chronological order never decrease. -/
def nonDecreasing : List Nat → Bool
  | [] => true
  | [_] => true
  | a :: b :: rest => decide (a ≤ b) && nonDecreasing (b :: rest)

theorem nonDecreasing_tail {a : Nat} {l : List Nat}
    (h : nonDecreasing (a :: l) = true) : nonDecreasing l = true := by
  cases l with
  | nil => rfl
  | cons b r =>
    unfold nonDecreasing at h
    exact (Bool.and_eq_true _ _ |>.mp h).2

theorem nonDecreasing_head_le {a : Nat} {l : List Nat}
    (h : nonDecreasing (a :: l) = true) : ∀ q ∈ l, a ≤ q := by
  induction l generalizing a with
  | nil => intro q hq; cases hq
  | cons b r ih =>
    intro q hq
    unfold nonDecreasing at h
    have hab : a ≤ b := by
      have := (Bool.and_eq_true _ _ |>.mp h).1
      exact of_decide_eq_true this
    have hbr : nonDecreasing (b :: r) = true := (Bool.and_eq_true _ _ |>.mp h).2
    rcases List.mem_cons.mp hq with rfl | hq'
    · exact hab
    · exact le_trans hab (ih hbr q hq')

theorem fireSeconds_gt : ∀ (l : List Nat) (prev li : Nat),
    nonDecreasing l = true → (∀ q ∈ l, prev ≤ q / 1000) →
    ∀ x ∈ fireSeconds prev li l, prev < x := by
  intro l
  induction l with
  | nil => intro prev li _ _ x hx; cases hx
  | cons pos rest ih =>
    intro prev li hnd hle x hx
    have hprev : prev ≤ pos / 1000 := hle pos (List.mem_cons_self pos rest)
    have hrest : ∀ q ∈ rest, pos / 1000 ≤ q / 1000 := fun q hq =>
      Nat.div_le_div_right (nonDecreasing_head_le hnd q hq)
    unfold fireSeconds at hx
    rcases List.mem_append.mp hx with hx1 | hx2
    · rcases h : (runCallback prev li pos).didTick with _ | _
      · simp [h] at hx1
      · simp [h] at hx1
        subst hx1
        have := ((tickStep_fst prev pos).mp (by rw [← runCallback_didTick prev li pos]; exact h)).1
        omega
    · rcases h : (runCallback prev li pos).didTick with _ | _
      · have hpr : (runCallback prev li pos).tickPrevSec = prev := by
          rw [runCallback_tickPrevSec]
          exact tickStep_snd_of_noTick prev pos (by rw [← runCallback_didTick prev li pos]; exact h)
        rw [hpr] at hx2
        exact ih prev _ (nonDecreasing_tail hnd)
          (fun q hq => le_trans hprev (hrest q hq)) x hx2
      · have hpr : (runCallback prev li pos).tickPrevSec = pos / 1000 := by
          rw [runCallback_tickPrevSec]
          exact tickStep_snd_of_tick prev pos (by rw [← runCallback_didTick prev li pos]; exact h)
        rw [hpr] at hx2
        have hlt : prev < pos / 1000 := by
          have := ((tickStep_fst prev pos).mp (by rw [← runCallback_didTick prev li pos]; exact h)).1
          omega
        exact lt_trans hlt (ih (pos / 1000) _ (nonDecreasing_tail hnd) hrest x hx2)

theorem fireSeconds_nodup : ∀ (l : List Nat) (prev li : Nat),
    nonDecreasing l = true → (fireSeconds prev li l).Nodup := by
  intro l
  induction l with
  | nil => intro prev li _; exact List.nodup_nil
  | cons pos rest ih =>
    intro prev li hnd
    have hrest : ∀ q ∈ rest, pos / 1000 ≤ q / 1000 := fun q hq =>
      Nat.div_le_div_right (nonDecreasing_head_le hnd q hq)
    unfold fireSeconds
    rcases h : (runCallback prev li pos).didTick with _ | _
    · have hpr : (runCallback prev li pos).tickPrevSec = prev := by
        rw [runCallback_tickPrevSec]
        exact tickStep_snd_of_noTick prev pos (by rw [← runCallback_didTick prev li pos]; exact h)
      rw [hpr]
      simpa using ih prev _ (nonDecreasing_tail hnd)
    · have hpr : (runCallback prev li pos).tickPrevSec = pos / 1000 := by
        rw [runCallback_tickPrevSec]
        exact tickStep_snd_of_tick prev pos (by rw [← runCallback_didTick prev li pos]; exact h)
      rw [hpr]
      simp only [eq_self_iff_true, if_true, List.singleton_append, List.nodup_cons]
      refine ⟨fun hmem => ?_, ih (pos / 1000) _ (nonDecreasing_tail hnd)⟩
      · have := fireSeconds_gt rest (pos / 1000) _ (nonDecreasing_tail hnd) hrest _ hmem
        omega

/-- C3: over any maximal run of consecutive wake-up firings whose position
reads are non-decreasing, `tick` is emitted at most once per distinct value
of `position // 1000`: the collected ticked seconds contain no duplicate. -/
theorem c3_no_duplicate_ticks (prev li : Nat) (l : List Nat)
    (h : nonDecreasing l = true) : (fireSeconds prev li l).Nodup :=
  fireSeconds_nodup l prev li h

/-- C3 witness: a concrete non-decreasing run of firings; two reads land in
second 2 yet it is ticked only once. -/
theorem c3_witness :
    nonDecreasing [500, 1005, 2040, 2300, 3120] = true ∧
    (fireSeconds 0 1010 [500, 1005, 2040, 2300, 3120]).Nodup :=
  ⟨by decide, c3_no_duplicate_ticks 0 1010 [500, 1005, 2040, 2300, 3120] (by decide)⟩

/-! The state invariant is established at `attach` and preserved by every
serially dispatched event. -/

theorem sourcesOk_none {s : Sys} (h : SourcesOk s) (hn : s.tr.sourceId = none) :
    s.g.sources = [] := by
  unfold SourcesOk at h
  rw [hn] at h
  exact h

theorem sourcesOk_some {s : Sys} (h : SourcesOk s) {id : Nat}
    (hn : s.tr.sourceId = some id) : ∃ iv, s.g.sources = [(id, iv)] := by
  unfold SourcesOk at h
  rw [hn] at h
  exact h

theorem sourcesOk_intro_none {s : Sys} (hn : s.tr.sourceId = none)
    (he : s.g.sources = []) : SourcesOk s := by
  unfold SourcesOk
  rw [hn]
  exact he

theorem sourcesOk_intro_some {s : Sys} {id : Nat} (iv : Nat)
    (hn : s.tr.sourceId = some id) (he : s.g.sources = [(id, iv)]) : SourcesOk s := by
  unfold SourcesOk
  rw [hn]
  exact ⟨iv, he⟩

theorem sourcesOk_congr {s s' : Sys} (h1 : s'.tr.sourceId = s.tr.sourceId)
    (h2 : s'.g.sources = s.g.sources) (h : SourcesOk s) : SourcesOk s' := by
  unfold SourcesOk at *
  rw [h1, h2]
  exact h

theorem armed_fields {s : Sys}
    (harm : s.tr.sourceId.isSome = (s.tr.attached && !s.tr.paused)) {id : Nat}
    (hs : s.tr.sourceId = some id) :
    s.tr.attached = true ∧ s.tr.paused = false := by
  rw [hs] at harm
  simp at harm
  exact harm

theorem disable_eq_none {s : Sys} (hn : s.tr.sourceId = none) : disable s = s := by
  simp [disable, hn]

theorem disable_eq_some {s : Sys} {id : Nat} (hn : s.tr.sourceId = some id) :
    disable s = ⟨{ s.tr with sourceId := none }, sourceRemove id s.g⟩ := by
  simp [disable, hn]

theorem enable_eq_none {s : Sys} (pos : Nat) (hn : s.tr.sourceId = none) :
    enable pos s = ⟨{ s.tr with sourceId := some s.g.nextId },
      ⟨s.g.sources ++ [(s.g.nextId, idealInterval pos)], s.g.nextId + 1⟩⟩ := by
  simp [enable, hn, timeoutAdd]

theorem enable_eq_some {s : Sys} (pos : Nat) {id : Nat} (hn : s.tr.sourceId = some id) :
    enable pos s = s := by
  simp [enable, hn]

theorem inv_attach (b : Bool) (pos : Nat) : Inv (attach b pos) := by
  cases b with
  | true =>
    refine ⟨rfl, ?_, rfl⟩
    intro p hp
    simp [attach] at hp
  | false =>
    refine ⟨⟨idealInterval pos, rfl⟩, ?_, rfl⟩
    intro p hp
    simp [attach, enable, timeoutAdd] at hp
    rw [hp]
    exact ⟨Nat.zero_lt_one, idealInterval_bounds pos⟩

theorem runCallback_act_newOneShot {prev li pos niv : Nat}
    (h : (runCallback prev li pos).act = Rearm.newOneShot niv) :
    niv = idealInterval pos := by
  have hr := runCallback_act prev li pos
  rw [h] at hr
  by_cases hc : absDiff li (idealInterval pos) > maxDelta
  · rw [if_pos hc] at hr
    simpa using hr
  · rw [if_neg hc] at hr
    simp at hr

theorem inv_step (s : Sys) (e : Ev) (h : Inv s) : Inv (step s e).1 := by
  obtain ⟨hso, hbound, harm⟩ := h
  cases e with
  | pauseSig =>
    by_cases ha : s.tr.attached = true
    · cases hs : s.tr.sourceId with
      | none =>
        have hemp := sourcesOk_none hso hs
        rw [show (step s Ev.pauseSig).1 = disable ⟨{ s.tr with paused := true }, s.g⟩
          from by simp [step, ha], disable_eq_none (s := ⟨{ s.tr with paused := true }, s.g⟩) hs]
        exact ⟨sourcesOk_intro_none hs hemp, hbound, by simp [hs]⟩
      | some id =>
        obtain ⟨iv, hsrc⟩ := sourcesOk_some hso hs
        rw [show (step s Ev.pauseSig).1 = disable ⟨{ s.tr with paused := true }, s.g⟩
          from by simp [step, ha], disable_eq_some (s := ⟨{ s.tr with paused := true }, s.g⟩) hs]
        refine ⟨sourcesOk_intro_none rfl ?_, ?_, by simp⟩
        · simp [sourceRemove, hsrc]
        · intro p hp
          simp [sourceRemove] at hp
          exact hbound p hp.1
    · rw [show (step s Ev.pauseSig).1 = s from by simp [step, ha]]
      exact ⟨hso, hbound, harm⟩
  | unpauseSig pos =>
    by_cases ha : s.tr.attached = true
    · cases hs : s.tr.sourceId with
      | none =>
        have hemp := sourcesOk_none hso hs
        rw [show (step s (Ev.unpauseSig pos)).1 = enable pos ⟨{ s.tr with paused := false }, s.g⟩
          from by simp [step, ha], enable_eq_none (s := ⟨{ s.tr with paused := false }, s.g⟩) pos hs]
        refine ⟨sourcesOk_intro_some (idealInterval pos) rfl ?_, ?_, by simp [ha]⟩
        · simp [hemp]
        · intro p hp
          simp [hemp] at hp
          rw [hp]
          exact ⟨Nat.lt_succ_self _, idealInterval_bounds pos⟩
      | some id =>
        rw [show (step s (Ev.unpauseSig pos)).1 = enable pos ⟨{ s.tr with paused := false }, s.g⟩
          from by simp [step, ha], enable_eq_some (s := ⟨{ s.tr with paused := false }, s.g⟩) pos hs]
        exact ⟨sourcesOk_intro_some (sourcesOk_some hso hs).choose hs
          (sourcesOk_some hso hs).choose_spec, hbound, by simp [hs, ha]⟩
    · rw [show (step s (Ev.unpauseSig pos)).1 = s from by simp [step, ha]]
      exact ⟨hso, hbound, harm⟩
  | seekSig seekPos pos =>
    by_cases ha : s.tr.attached = true
    · by_cases hp : s.tr.paused = true
      · rw [show (step s (Ev.seekSig seekPos pos)).1 =
          ⟨{ s.tr with tickPrevSec := seekPos / 1000 }, s.g⟩ from by simp [step, ha, hp]]
        exact ⟨sourcesOk_congr rfl rfl hso, hbound, by simp [harm, hp]⟩
      · have hp' : s.tr.paused = false := by simpa using hp
        have hsome : s.tr.sourceId.isSome = true := by rw [harm, ha, hp']; rfl
        obtain ⟨id, hs⟩ := Option.isSome_iff_exists.mp hsome
        obtain ⟨iv, hsrc⟩ := sourcesOk_some hso hs
        rw [show (step s (Ev.seekSig seekPos pos)).1 =
          restart pos ⟨{ s.tr with tickPrevSec := seekPos / 1000 }, s.g⟩
          from by simp [step, ha, hp']]
        rw [restart, disable_eq_some (s := ⟨{ s.tr with tickPrevSec := seekPos / 1000 }, s.g⟩) hs]
        rw [enable_eq_none _ rfl]
        refine ⟨sourcesOk_intro_some (idealInterval pos) rfl ?_, ?_, by simp [ha, hp']⟩
        · simp [sourceRemove, hsrc]
        · intro p hpm
          simp [sourceRemove, hsrc] at hpm
          rw [hpm]
          exact ⟨Nat.lt_succ_self _, idealInterval_bounds pos⟩
    · rw [show (step s (Ev.seekSig seekPos pos)).1 = s from by simp [step, ha]]
      exact ⟨hso, hbound, harm⟩
  | songStartedSig =>
    by_cases ha : s.tr.attached = true
    · rw [show (step s Ev.songStartedSig).1 =
        ⟨{ s.tr with tickPrevSec := songStartedStep s.tr.tickPrevSec }, s.g⟩
        from by simp [step, ha]]
      exact ⟨sourcesOk_congr rfl rfl hso, hbound, by simp [harm]⟩
    · rw [show (step s Ev.songStartedSig).1 = s from by simp [step, ha]]
      exact ⟨hso, hbound, harm⟩
  | destroySig =>
    cases hs : s.tr.sourceId with
    | none =>
      have hemp := sourcesOk_none hso hs
      rw [show (step s Ev.destroySig).1 = ⟨{ (disable s).tr with attached := false }, (disable s).g⟩
        from rfl, disable_eq_none hs]
      exact ⟨sourcesOk_intro_none hs hemp, hbound, by simp [hs]⟩
    | some id =>
      obtain ⟨iv, hsrc⟩ := sourcesOk_some hso hs
      rw [show (step s Ev.destroySig).1 = ⟨{ (disable s).tr with attached := false }, (disable s).g⟩
        from rfl, disable_eq_some hs]
      refine ⟨sourcesOk_intro_none rfl ?_, ?_, by simp⟩
      · simp [sourceRemove, hsrc]
      · intro p hpm
        simp [sourceRemove, hsrc] at hpm
  | fire id pos =>
    cases hs : s.tr.sourceId with
    | none =>
      have hemp := sourcesOk_none hso hs
      rw [show (step s (Ev.fire id pos)).1 = s from by simp [step, fireStep, hemp, findInterval]]
      exact ⟨hso, hbound, harm⟩
    | some id0 =>
      obtain ⟨iv0, hsrc⟩ := sourcesOk_some hso hs
      by_cases hid : id0 = id
      · subst hid
        have hfind : findInterval id0 s.g.sources = some iv0 := by
          rw [hsrc]; simp [findInterval]
        have hnext : id0 < s.g.nextId := (hbound (id0, iv0) (by rw [hsrc]; simp)).1
        rcases hact : (runCallback s.tr.tickPrevSec iv0 pos).act with niv | _
        · have hniv : niv = idealInterval pos := runCallback_act_newOneShot hact
          rw [show (step s (Ev.fire id0 pos)).1 =
              ⟨{ s.tr with
                  tickPrevSec := (runCallback s.tr.tickPrevSec iv0 pos).tickPrevSec,
                  sourceId := some s.g.nextId },
                sourceRemove id0 ⟨s.g.sources ++ [(s.g.nextId, niv)], s.g.nextId + 1⟩⟩
            from by simp [step, fireStep, hfind, hact, timeoutAdd]]
          have hfil : (sourceRemove id0 ⟨s.g.sources ++ [(s.g.nextId, niv)],
              s.g.nextId + 1⟩).sources = [(s.g.nextId, niv)] := by
            have hne : (s.g.nextId != id0) = true := by
              simp only [bne_iff_ne, ne_eq]
              omega
            simp [sourceRemove, hsrc, List.filter, hne]
          refine ⟨sourcesOk_intro_some niv rfl hfil, ?_, by
            obtain ⟨h1, h2⟩ := armed_fields harm hs
            simp [h1, h2]⟩
          · intro p hpm
            rw [show (sourceRemove id0 ⟨s.g.sources ++ [(s.g.nextId, niv)],
              s.g.nextId + 1⟩).nextId = s.g.nextId + 1 from rfl] at *
            rw [hfil] at hpm
            simp at hpm
            rw [hpm, hniv]
            exact ⟨Nat.lt_succ_self _, idealInterval_bounds pos⟩
        · rw [show (step s (Ev.fire id0 pos)).1 =
            ⟨{ s.tr with tickPrevSec := (runCallback s.tr.tickPrevSec iv0 pos).tickPrevSec }, s.g⟩
            from by simp [step, fireStep, hfind, hact]]
          refine ⟨sourcesOk_congr rfl rfl hso, hbound, by
            obtain ⟨h1, h2⟩ := armed_fields harm hs
            simp [hs, h1, h2]⟩
      · have hfind : findInterval id s.g.sources = none := by
          rw [hsrc]; simp [findInterval, hid]
        rw [show (step s (Ev.fire id pos)).1 = s from by simp [step, fireStep, hfind]]
        exact ⟨hso, hbound, harm⟩

theorem inv_reachable {s : Sys} (h : Reachable s) : Inv s := by
  induction h with
  | base b pos => exact inv_attach b pos
  | next s e _ ih => exact inv_step s e ih

/-- C6: in every reachable state, `__source_id` is held exactly while the
tracker is attached and the player is not paused; at most one GLib source
is ever outstanding; and the held id is precisely the single live source
(so every re-arm has disposed of the prior wake-up within the same serial
dispatch). -/
theorem c6_pending_iff_armed (s : Sys) (hR : Reachable s) :
    (s.tr.sourceId.isSome = (s.tr.attached && !s.tr.paused)) ∧
    s.g.sources.length ≤ 1 ∧ SourcesOk s := by
  obtain ⟨hso, hbound, harm⟩ := inv_reachable hR
  refine ⟨harm, ?_, hso⟩
  cases hs : s.tr.sourceId with
  | none =>
    rw [sourcesOk_none hso hs]
    simp
  | some id =>
    obtain ⟨iv, hsrc⟩ := sourcesOk_some hso hs
    rw [hsrc]
    simp

/-- C6 witness: armed right after an unpaused attach; the single live
source matches the held id. -/
theorem c6_witness :
    ((attach false 3).tr.sourceId.isSome
      = ((attach false 3).tr.attached && !(attach false 3).tr.paused)) ∧
    (attach false 3).g.sources.length ≤ 1 :=
  ⟨(c6_pending_iff_armed (attach false 3) (Reachable.base false 3)).1,
    (c6_pending_iff_armed (attach false 3) (Reachable.base false 3)).2.1⟩

/-- C10: both arming sites pass `1000 + offset - position % 1000` with
`offset = 10` to `GLib.timeout_add`, so every interval lies in 11..1010 ms
inclusive and is strictly positive; consequently every live source in any
reachable state carries an interval in that range. -/
theorem c10_interval_range (pos : Nat) (s : Sys) (hR : Reachable s) :
    offset = 10 ∧
    idealInterval pos = 1000 + offset - pos % 1000 ∧
    11 ≤ idealInterval pos ∧ idealInterval pos ≤ 1010 ∧ 0 < idealInterval pos ∧
    (s.g.sources.all (fun p => decide (11 ≤ p.2) && decide (p.2 ≤ 1010))) = true := by
  obtain ⟨hso, hbound, harm⟩ := inv_reachable hR
  obtain ⟨hlo, hhi⟩ := idealInterval_bounds pos
  refine ⟨rfl, rfl, hlo, hhi, by omega, ?_⟩
  rw [List.all_eq_true]
  intro p hp
  obtain ⟨_, h1, h2⟩ := hbound p hp
  simp [h1, h2]

/-- C10 witness: the range facts at a concrete position and at a concrete
reachable state obtained by one firing. -/
theorem c10_witness :
    11 ≤ idealInterval 1500 ∧ idealInterval 1500 ≤ 1010 ∧
    ((step (attach false 0) (Ev.fire 0 1500)).1.g.sources.all
      (fun p => decide (11 ≤ p.2) && decide (p.2 ≤ 1010))) = true :=
  ⟨(c10_interval_range 1500 (step (attach false 0) (Ev.fire 0 1500)).1
      (Reachable.next (attach false 0) (Ev.fire 0 1500) (Reachable.base false 0))).2.2.1,
    (c10_interval_range 1500 (step (attach false 0) (Ev.fire 0 1500)).1
      (Reachable.next (attach false 0) (Ev.fire 0 1500) (Reachable.base false 0))).2.2.2.1,
    (c10_interval_range 1500 (step (attach false 0) (Ev.fire 0 1500)).1
      (Reachable.next (attach false 0) (Ev.fire 0 1500) (Reachable.base false 0))).2.2.2.2.2⟩

/-! Quiet states: no pending wake-up and suppressed (paused or detached).
Such a state emits no tick under any event other than `unpaused`. -/

def isUnpause : Ev → Bool
  | .unpauseSig _ => true
  | _ => false

def Quiet (s : Sys) : Prop :=
  Inv s ∧ s.tr.sourceId = none ∧ (s.tr.paused = true ∨ s.tr.attached = false)

theorem runEvents_cons (s : Sys) (e : Ev) (rest : List Ev) :
    runEvents s (e :: rest)
      = ((runEvents (step s e).1 rest).1,
          (step s e).2 || (runEvents (step s e).1 rest).2) := rfl

theorem step_pause_none {s : Sys} (ha : s.tr.attached = true)
    (hn : s.tr.sourceId = none) :
    step s Ev.pauseSig = (⟨{ s.tr with paused := true }, s.g⟩, false) := by
  have h2 : (⟨{ s.tr with paused := true }, s.g⟩ : Sys).tr.sourceId = none := hn
  rw [show step s Ev.pauseSig = (disable ⟨{ s.tr with paused := true }, s.g⟩, false)
    from by simp [step, ha]]
  rw [disable_eq_none h2]

theorem step_pause_some {s : Sys} (ha : s.tr.attached = true) {id : Nat}
    (hs : s.tr.sourceId = some id) :
    step s Ev.pauseSig
      = (⟨{ { s.tr with paused := true } with sourceId := none },
          sourceRemove id s.g⟩, false) := by
  have h2 : (⟨{ s.tr with paused := true }, s.g⟩ : Sys).tr.sourceId = some id := hs
  rw [show step s Ev.pauseSig = (disable ⟨{ s.tr with paused := true }, s.g⟩, false)
    from by simp [step, ha]]
  rw [disable_eq_some h2]

theorem step_unpause_none {s : Sys} (ha : s.tr.attached = true)
    (hn : s.tr.sourceId = none) (pos : Nat) :
    step s (Ev.unpauseSig pos)
      = (⟨{ { s.tr with paused := false } with sourceId := some s.g.nextId },
          ⟨s.g.sources ++ [(s.g.nextId, idealInterval pos)], s.g.nextId + 1⟩⟩,
        false) := by
  have h2 : (⟨{ s.tr with paused := false }, s.g⟩ : Sys).tr.sourceId = none := hn
  rw [show step s (Ev.unpauseSig pos)
      = (enable pos ⟨{ s.tr with paused := false }, s.g⟩, false)
    from by simp [step, ha]]
  rw [enable_eq_none pos h2]

theorem step_unpause_pending {s : Sys} (ha : s.tr.attached = true) {id : Nat}
    (hs : s.tr.sourceId = some id) (pos : Nat) :
    step s (Ev.unpauseSig pos) = (⟨{ s.tr with paused := false }, s.g⟩, false) := by
  have h2 : (⟨{ s.tr with paused := false }, s.g⟩ : Sys).tr.sourceId = some id := hs
  rw [show step s (Ev.unpauseSig pos)
      = (enable pos ⟨{ s.tr with paused := false }, s.g⟩, false)
    from by simp [step, ha]]
  rw [enable_eq_some pos h2]

theorem step_fire_dead {s : Sys} (hemp : s.g.sources = []) (id pos : Nat) :
    step s (Ev.fire id pos) = (s, false) := by
  have hf : findInterval id s.g.sources = none := by rw [hemp]; rfl
  simp [step, fireStep, hf]

theorem step_destroy_none {s : Sys} (hn : s.tr.sourceId = none) :
    step s Ev.destroySig = (⟨{ s.tr with attached := false }, s.g⟩, false) := by
  simp [step, destroy, disable_eq_none hn]

theorem quiet_step {s : Sys} (h : Quiet s) (e : Ev) (he : isUnpause e = false) :
    (step s e).2 = false ∧ Quiet (step s e).1 := by
  obtain ⟨hInv, hsid, hpa⟩ := h
  have hemp : s.g.sources = [] := sourcesOk_none hInv.1 hsid
  have hInv2 : Inv (step s e).1 := inv_step s e hInv
  cases e with
  | pauseSig =>
    by_cases ha : s.tr.attached = true
    · rw [step_pause_none ha hsid] at hInv2 ⊢
      exact ⟨rfl, hInv2, hsid, Or.inl rfl⟩
    · rw [show step s Ev.pauseSig = (s, false) from by simp [step, ha]] at hInv2 ⊢
      exact ⟨rfl, hInv2, hsid, hpa⟩
  | unpauseSig pos => simp [isUnpause] at he
  | seekSig seekPos pos =>
    by_cases ha : s.tr.attached = true
    · have hp : s.tr.paused = true := by
        rcases hpa with h1 | h1
        · exact h1
        · rw [ha] at h1; cases h1
      rw [show step s (Ev.seekSig seekPos pos)
          = (⟨{ s.tr with tickPrevSec := seekPos / 1000 }, s.g⟩, false)
        from by simp [step, ha, hp]] at hInv2 ⊢
      exact ⟨rfl, hInv2, hsid, Or.inl hp⟩
    · rw [show step s (Ev.seekSig seekPos pos) = (s, false)
        from by simp [step, ha]] at hInv2 ⊢
      exact ⟨rfl, hInv2, hsid, hpa⟩
  | songStartedSig =>
    by_cases ha : s.tr.attached = true
    · rw [show step s Ev.songStartedSig
          = (⟨{ s.tr with tickPrevSec := songStartedStep s.tr.tickPrevSec }, s.g⟩, false)
        from by simp [step, ha]] at hInv2 ⊢
      exact ⟨rfl, hInv2, hsid, hpa⟩
    · rw [show step s Ev.songStartedSig = (s, false) from by simp [step, ha]] at hInv2 ⊢
      exact ⟨rfl, hInv2, hsid, hpa⟩
  | fire id pos =>
    rw [step_fire_dead hemp id pos] at hInv2 ⊢
    exact ⟨rfl, hInv2, hsid, hpa⟩
  | destroySig =>
    rw [step_destroy_none hsid] at hInv2 ⊢
    exact ⟨rfl, hInv2, hsid, Or.inr rfl⟩

theorem quiet_runEvents : ∀ (evs : List Ev) (s : Sys), Quiet s →
    evs.all (fun e => !isUnpause e) = true → (runEvents s evs).2 = false := by
  intro evs
  induction evs with
  | nil => intro s _ _; rfl
  | cons e rest ih =>
    intro s h hall
    rw [List.all_cons] at hall
    obtain ⟨he, hrest⟩ := (Bool.and_eq_true _ _).mp hall
    obtain ⟨ht, hq⟩ := quiet_step h e (by simpa using he)
    rw [runEvents_cons]
    show ((step s e).2 || (runEvents (step s e).1 rest).2) = false
    rw [ht, Bool.false_or]
    exact ih (step s e).1 hq hrest

theorem unarmed_of_detached {s : Sys} (hInv : Inv s)
    (ha : s.tr.attached = false) : s.tr.sourceId = none := by
  have h3 := hInv.2.2
  rw [ha] at h3
  cases hq : s.tr.sourceId with
  | none => rfl
  | some id => rw [hq] at h3; simp at h3

theorem pause_quiet {s : Sys} (hR : Reachable s) : Quiet (step s Ev.pauseSig).1 := by
  have hInv := inv_reachable hR
  have hInv2 : Inv (step s Ev.pauseSig).1 := inv_step s Ev.pauseSig hInv
  by_cases ha : s.tr.attached = true
  · cases hs : s.tr.sourceId with
    | none =>
      rw [step_pause_none ha hs] at hInv2 ⊢
      exact ⟨hInv2, hs, Or.inl rfl⟩
    | some id =>
      rw [step_pause_some ha hs] at hInv2 ⊢
      exact ⟨hInv2, rfl, Or.inl rfl⟩
  · have ha' : s.tr.attached = false := by simpa using ha
    rw [show step s Ev.pauseSig = (s, false) from by simp [step, ha]] at hInv2 ⊢
    exact ⟨hInv2, unarmed_of_detached hInv ha', Or.inr ha'⟩

/-- C7: once the `paused` signal has been handled, no later dispatch emits
a tick until an `unpaused` signal arrives, regardless of how many timer
firings or other signals occur meanwhile; handling `unpaused` after the
pause arms a single fresh wake-up computed from the current position, and
handling `unpaused` while a wake-up is already pending only clears the
pause flag (it arms nothing, since `__enable` is guarded on
`__source_id is None`). -/
theorem c7_pause_suppresses_ticks (s : Sys) (evs : List Ev) (pos : Nat)
    (hR : Reachable s)
    (hno : evs.all (fun e => !isUnpause e) = true) :
    (runEvents (step s Ev.pauseSig).1 evs).2 = false ∧
    ((step s Ev.pauseSig).1.tr.attached = true →
      (step (step s Ev.pauseSig).1 (Ev.unpauseSig pos)).1.tr.sourceId
        = some (step s Ev.pauseSig).1.g.nextId ∧
      (step (step s Ev.pauseSig).1 (Ev.unpauseSig pos)).1.g.sources
        = [((step s Ev.pauseSig).1.g.nextId, idealInterval pos)]) ∧
    (s.tr.attached = true → s.tr.sourceId.isSome = true →
      (step s (Ev.unpauseSig pos)).1 = ⟨{ s.tr with paused := false }, s.g⟩) := by
  have hq := pause_quiet hR
  refine ⟨quiet_runEvents evs (step s Ev.pauseSig).1 hq hno, ?_, ?_⟩
  · intro ha1
    have hn1 : (step s Ev.pauseSig).1.tr.sourceId = none := hq.2.1
    have hemp1 : (step s Ev.pauseSig).1.g.sources = [] := sourcesOk_none hq.1.1 hn1
    rw [step_unpause_none ha1 hn1 pos]
    refine ⟨rfl, ?_⟩
    show (step s Ev.pauseSig).1.g.sources
        ++ [((step s Ev.pauseSig).1.g.nextId, idealInterval pos)] = _
    rw [hemp1]
    rfl
  · intro ha hsome
    obtain ⟨id, hs⟩ := Option.isSome_iff_exists.mp hsome
    rw [step_unpause_pending ha hs pos]

/-- C7 witness: concrete pause followed by firings, signals and a second
pause emits nothing. -/
theorem c7_witness :
    ([Ev.fire 0 5000, Ev.songStartedSig, Ev.pauseSig,
        Ev.seekSig 3000 3000].all (fun e => !isUnpause e)) = true ∧
    (runEvents (step (attach false 0) Ev.pauseSig).1
      [Ev.fire 0 5000, Ev.songStartedSig, Ev.pauseSig,
        Ev.seekSig 3000 3000]).2 = false :=
  ⟨by decide,
    (c7_pause_suppresses_ticks (attach false 0)
      [Ev.fire 0 5000, Ev.songStartedSig, Ev.pauseSig, Ev.seekSig 3000 3000]
      2500 (Reachable.base false 0) (by decide)).1⟩

/-! Dead states: signal subscriptions disconnected and no pending wake-up.
Every subsequent dispatch (including `unpaused`) is tick-free and leaves
the state dead. -/

def Dead (s : Sys) : Prop := Inv s ∧ s.tr.attached = false

theorem dead_step {s : Sys} (h : Dead s) (e : Ev) :
    (step s e).2 = false ∧ Dead (step s e).1 := by
  obtain ⟨hInv, ha⟩ := h
  have hn : s.tr.sourceId = none := unarmed_of_detached hInv ha
  have hemp : s.g.sources = [] := sourcesOk_none hInv.1 hn
  have hInv2 : Inv (step s e).1 := inv_step s e hInv
  have ha' : ¬(s.tr.attached = true) := by rw [ha]; simp
  cases e with
  | pauseSig =>
    rw [show step s Ev.pauseSig = (s, false) from by simp [step, ha']] at hInv2 ⊢
    exact ⟨rfl, hInv2, ha⟩
  | unpauseSig pos =>
    rw [show step s (Ev.unpauseSig pos) = (s, false) from by simp [step, ha']] at hInv2 ⊢
    exact ⟨rfl, hInv2, ha⟩
  | seekSig seekPos pos =>
    rw [show step s (Ev.seekSig seekPos pos) = (s, false)
      from by simp [step, ha']] at hInv2 ⊢
    exact ⟨rfl, hInv2, ha⟩
  | songStartedSig =>
    rw [show step s Ev.songStartedSig = (s, false) from by simp [step, ha']] at hInv2 ⊢
    exact ⟨rfl, hInv2, ha⟩
  | fire id pos =>
    rw [step_fire_dead hemp id pos] at hInv2 ⊢
    exact ⟨rfl, hInv2, ha⟩
  | destroySig =>
    rw [step_destroy_none hn] at hInv2 ⊢
    exact ⟨rfl, hInv2, rfl⟩

theorem dead_runEvents : ∀ (evs : List Ev) (s : Sys), Dead s →
    (runEvents s evs).2 = false := by
  intro evs
  induction evs with
  | nil => intro s _; rfl
  | cons e rest ih =>
    intro s h
    obtain ⟨ht, hd⟩ := dead_step h e
    rw [runEvents_cons]
    show ((step s e).2 || (runEvents (step s e).1 rest).2) = false
    rw [ht, Bool.false_or]
    exact ih (step s e).1 hd

theorem destroy_idem {d : Sys} (hn : d.tr.sourceId = none)
    (ha : d.tr.attached = false) : destroy d = d := by
  obtain ⟨⟨a, b, c, e⟩, g⟩ := d
  simp only [] at hn ha
  subst hn
  subst ha
  simp [destroy, disable]

/-- C9: handling `destroy` cancels the pending wake-up (the GLib table is
left empty), clears `__source_id`, disconnects the four player-signal
subscriptions, and afterwards no dispatch of any kind ever emits a tick;
moreover handling `destroy` again (or when nothing was ever armed, as in a
paused attach) is a no-op on the state and does not fail. -/
theorem c9_detach_silence (s : Sys) (evs : List Ev) (hR : Reachable s) :
    (step s Ev.destroySig).1.tr.sourceId = none ∧
    (step s Ev.destroySig).1.g.sources = [] ∧
    (step s Ev.destroySig).1.tr.attached = false ∧
    (runEvents (step s Ev.destroySig).1 evs).2 = false ∧
    (step (step s Ev.destroySig).1 Ev.destroySig).1 = (step s Ev.destroySig).1 := by
  have hInv := inv_reachable hR
  have hInv2 : Inv (step s Ev.destroySig).1 := inv_step s Ev.destroySig hInv
  have ha2 : (step s Ev.destroySig).1.tr.attached = false := by
    cases hs : s.tr.sourceId with
    | none => rw [step_destroy_none hs]
    | some id =>
      obtain ⟨iv, hsrc⟩ := sourcesOk_some hInv.1 hs
      rw [show step s Ev.destroySig
          = (⟨{ (disable s).tr with attached := false }, (disable s).g⟩, false)
        from rfl]
  have hd : Dead (step s Ev.destroySig).1 := ⟨hInv2, ha2⟩
  have hn2 : (step s Ev.destroySig).1.tr.sourceId = none :=
    unarmed_of_detached hInv2 ha2
  refine ⟨hn2, sourcesOk_none hInv2.1 hn2, ha2,
    dead_runEvents evs (step s Ev.destroySig).1 hd, ?_⟩
  exact destroy_idem hn2 ha2

/-- C9 witness: destroying a never-armed tracker (paused attach), then
dispatching firings, signals and a second destroy: silence throughout and
a stable state. -/
theorem c9_witness :
    (step (attach true 5) Ev.destroySig).1.tr.sourceId = none ∧
    (runEvents (step (attach true 5) Ev.destroySig).1
      [Ev.unpauseSig 700, Ev.fire 0 3000, Ev.destroySig]).2 = false ∧
    (step (step (attach true 5) Ev.destroySig).1 Ev.destroySig).1
      = (step (attach true 5) Ev.destroySig).1 :=
  ⟨(c9_detach_silence (attach true 5) [Ev.unpauseSig 700, Ev.fire 0 3000, Ev.destroySig]
      (Reachable.base true 5)).1,
    (c9_detach_silence (attach true 5) [Ev.unpauseSig 700, Ev.fire 0 3000, Ev.destroySig]
      (Reachable.base true 5)).2.2.2.1,
    (c9_detach_silence (attach true 5) [Ev.unpauseSig 700, Ev.fire 0 3000, Ev.destroySig]
      (Reachable.base true 5)).2.2.2.2⟩

/-! Shape lemmas for a firing on a live source and for a seek handled while
armed, used for the seek-baseline claim. -/

theorem fireStep_tick {s : Sys} {id iv : Nat} (pos : Nat)
    (hf : findInterval id s.g.sources = some iv) :
    (step s (Ev.fire id pos)).2
      = (runCallback s.tr.tickPrevSec iv pos).didTick := by
  rcases hact : (runCallback s.tr.tickPrevSec iv pos).act with niv | _
  · simp [step, fireStep, hf, hact, timeoutAdd]
  · simp [step, fireStep, hf, hact]

theorem fireStep_prevSec {s : Sys} {id iv : Nat} (pos : Nat)
    (hf : findInterval id s.g.sources = some iv) :
    (step s (Ev.fire id pos)).1.tr.tickPrevSec
      = (runCallback s.tr.tickPrevSec iv pos).tickPrevSec := by
  rcases hact : (runCallback s.tr.tickPrevSec iv pos).act with niv | _
  · simp [step, fireStep, hf, hact, timeoutAdd]
  · simp [step, fireStep, hf, hact]

theorem fireStep_flags (s : Sys) (id pos : Nat) :
    (step s (Ev.fire id pos)).1.tr.attached = s.tr.attached ∧
    (step s (Ev.fire id pos)).1.tr.paused = s.tr.paused := by
  cases hf : findInterval id s.g.sources with
  | none => simp [step, fireStep, hf]
  | some iv =>
    rcases hact : (runCallback s.tr.tickPrevSec iv pos).act with niv | _ <;>
      simp [step, fireStep, hf, hact, timeoutAdd]

theorem step_seek_armed {s : Sys} (ha : s.tr.attached = true)
    (hp : s.tr.paused = false) {id iv : Nat} (hs : s.tr.sourceId = some id)
    (hsrc : s.g.sources = [(id, iv)]) (sp pos : Nat) :
    (step s (Ev.seekSig sp pos)).2 = false ∧
    (step s (Ev.seekSig sp pos)).1.tr.tickPrevSec = sp / 1000 ∧
    (step s (Ev.seekSig sp pos)).1.tr.sourceId = some s.g.nextId ∧
    (step s (Ev.seekSig sp pos)).1.tr.attached = s.tr.attached ∧
    (step s (Ev.seekSig sp pos)).1.tr.paused = s.tr.paused ∧
    (step s (Ev.seekSig sp pos)).1.g.sources = [(s.g.nextId, idealInterval pos)] ∧
    (step s (Ev.seekSig sp pos)).1.g.nextId = s.g.nextId + 1 := by
  have h1 : (⟨{ s.tr with tickPrevSec := sp / 1000 }, s.g⟩ : Sys).tr.sourceId = some id := hs
  have hstep : step s (Ev.seekSig sp pos)
      = (restart pos ⟨{ s.tr with tickPrevSec := sp / 1000 }, s.g⟩, false) := by
    simp [step, ha, hp]
  rw [hstep, restart, disable_eq_some h1, enable_eq_none pos rfl]
  refine ⟨rfl, rfl, rfl, rfl, rfl, ?_, rfl⟩
  show (sourceRemove id s.g).sources
      ++ [((sourceRemove id s.g).nextId, idealInterval pos)] = _
  rw [show (sourceRemove id s.g).sources = [] from by simp [sourceRemove, hsrc]]
  rfl

/-- C4: handling the `seek` signal sets `__tick_prev_sec` to the floor
second of the seek target; while playing it also unconditionally cancels
the pending wake-up (`restart` runs `__disable` then `__enable`) and arms
a single fresh source with an interval computed from the current position;
after a seek to 5000 ms, the wake-up that reads 5010 ms emits no tick and
keeps `__tick_prev_sec = 5`, and the following wake-up that reads 6050 ms
does emit a tick. -/
theorem c4_seek_resets_baseline (s : Sys) (sp pos : Nat) (hR : Reachable s)
    (ha : s.tr.attached = true) (hp : s.tr.paused = false) :
    (step s (Ev.seekSig sp pos)).1.tr.tickPrevSec = sp / 1000 ∧
    (step s (Ev.seekSig sp pos)).1.tr.sourceId = some s.g.nextId ∧
    (step s (Ev.seekSig sp pos)).1.g.sources = [(s.g.nextId, idealInterval pos)] ∧
    (step (step s (Ev.seekSig 5000 pos)).1 (Ev.fire s.g.nextId 5010)).2 = false ∧
    (step (step s (Ev.seekSig 5000 pos)).1
      (Ev.fire s.g.nextId 5010)).1.tr.tickPrevSec = 5 ∧
    (step (step (step s (Ev.seekSig 5000 pos)).1 (Ev.fire s.g.nextId 5010)).1
      (Ev.fire ((step (step s (Ev.seekSig 5000 pos)).1
          (Ev.fire s.g.nextId 5010)).1.tr.sourceId.getD 0) 6050)).2 = true := by
  have hInv0 := inv_reachable hR
  obtain ⟨hso, hbound, harm⟩ := hInv0
  have hsome : s.tr.sourceId.isSome = true := by rw [harm, ha, hp]; rfl
  obtain ⟨id, hs⟩ := Option.isSome_iff_exists.mp hsome
  obtain ⟨iv, hsrc⟩ := sourcesOk_some hso hs
  obtain ⟨t2, p2, i2, a2, u2, src2, n2⟩ := step_seek_armed ha hp hs hsrc sp pos
  obtain ⟨t1, p1, i1, a1, u1, src1, n1⟩ := step_seek_armed ha hp hs hsrc 5000 pos
  have hf1 : findInterval s.g.nextId (step s (Ev.seekSig 5000 pos)).1.g.sources
      = some (idealInterval pos) := by
    rw [src1]
    simp [findInterval]
  have ht2 := fireStep_tick 5010 hf1
  rw [p1] at ht2
  have hp2 := fireStep_prevSec 5010 hf1
  rw [p1] at hp2
  have hprev2 : (step (step s (Ev.seekSig 5000 pos)).1
      (Ev.fire s.g.nextId 5010)).1.tr.tickPrevSec = 5 := by
    rw [hp2, runCallback_tickPrevSec]
    decide
  refine ⟨p2, i2, src2, ?_, hprev2, ?_⟩
  · rw [ht2, runCallback_didTick]
    decide
  · have hInv1 : Inv (step s (Ev.seekSig 5000 pos)).1 :=
      inv_step s (Ev.seekSig 5000 pos) ⟨hso, hbound, harm⟩
    have hInv2 : Inv (step (step s (Ev.seekSig 5000 pos)).1
        (Ev.fire s.g.nextId 5010)).1 :=
      inv_step (step s (Ev.seekSig 5000 pos)).1 (Ev.fire s.g.nextId 5010) hInv1
    have ha2 : (step (step s (Ev.seekSig 5000 pos)).1
        (Ev.fire s.g.nextId 5010)).1.tr.attached = true := by
      rw [(fireStep_flags (step s (Ev.seekSig 5000 pos)).1 s.g.nextId 5010).1, a1, ha]
    have hu2 : (step (step s (Ev.seekSig 5000 pos)).1
        (Ev.fire s.g.nextId 5010)).1.tr.paused = false := by
      rw [(fireStep_flags (step s (Ev.seekSig 5000 pos)).1 s.g.nextId 5010).2, u1, hp]
    have hsome2 : (step (step s (Ev.seekSig 5000 pos)).1
        (Ev.fire s.g.nextId 5010)).1.tr.sourceId.isSome = true := by
      rw [hInv2.2.2, ha2, hu2]
      rfl
    obtain ⟨j, hj⟩ := Option.isSome_iff_exists.mp hsome2
    obtain ⟨jv, hjsrc⟩ := sourcesOk_some hInv2.1 hj
    have hfj : findInterval j (step (step s (Ev.seekSig 5000 pos)).1
        (Ev.fire s.g.nextId 5010)).1.g.sources = some jv := by
      rw [hjsrc]
      simp [findInterval]
    have hgetD : (step (step s (Ev.seekSig 5000 pos)).1
        (Ev.fire s.g.nextId 5010)).1.tr.sourceId.getD 0 = j := by
      rw [hj]
      rfl
    rw [hgetD, fireStep_tick 6050 hfj, hprev2, runCallback_didTick]
    decide

/-- C4 witness: the seek-baseline scenario from a concrete attached,
playing state. -/
theorem c4_witness :
    (step (attach false 0) (Ev.seekSig 5000 123)).1.tr.tickPrevSec = 5000 / 1000 ∧
    (step (step (attach false 0) (Ev.seekSig 5000 123)).1 (Ev.fire 1 5010)).2 = false ∧
    (step (step (step (attach false 0) (Ev.seekSig 5000 123)).1 (Ev.fire 1 5010)).1
      (Ev.fire ((step (step (attach false 0) (Ev.seekSig 5000 123)).1
          (Ev.fire 1 5010)).1.tr.sourceId.getD 0) 6050)).2 = true :=
  ⟨(c4_seek_resets_baseline (attach false 0) 5000 123
      (Reachable.base false 0) (by decide) (by decide)).1,
    (c4_seek_resets_baseline (attach false 0) 5000 123
      (Reachable.base false 0) (by decide) (by decide)).2.2.2.1,
    (c4_seek_resets_baseline (attach false 0) 5000 123
      (Reachable.base false 0) (by decide) (by decide)).2.2.2.2.2⟩

end SeekBar
